import Mathlib

/-!
Verification development for the neutron-sync secure ephemeral transfer
subsystem (`nsync/client.py` and `nsync/server.py`).

The client (`ApiClient.transfer_files` / `ApiClient.download`) derives a key
from a password and a 16-byte salt via PBKDF2-HMAC-SHA256, base64-encodes the
file contents into a JSON object, encrypts with Fernet, and ships the token
and salt to the relay server.  The server (`transfer` in `nsync/server.py`)
is a two-action router over a Redis TTL store with delete-on-read semantics.

External collaborators (the `cryptography` library's PBKDF2HMAC and Fernet,
Python's `json` module, Redis) are modelled by executable Lean definitions
that capture their documented contracts; everything written in the repository
itself (the byte-level base64 codec usage, the request router, the client's
response handling and state updates) is translated directly from the source.
-/

/-! ## URL-safe base64 (Python `base64.urlsafe_b64encode` / `urlsafe_b64decode`)

`nsync/client.py` base64-encodes every file's raw bytes before JSON
serialisation, and base64-decodes them when writing files back out.  Bytes are
modelled as natural numbers below 256. -/

/-- The URL-safe base64 alphabet: `A`–`Z`, `a`–`z`, `0`–`9`, `-`, `_`. -/
def b64char (n : Nat) : Char :=
  if n < 26 then Char.ofNat (65 + n)
  else if n < 52 then Char.ofNat (97 + (n - 26))
  else if n < 62 then Char.ofNat (48 + (n - 52))
  else if n = 62 then '-'
  else '_'

/-- Position of a character in the URL-safe base64 alphabet, if any. -/
def b64index (c : Char) : Option Nat :=
  let n := c.toNat
  if 65 ≤ n ∧ n ≤ 90 then some (n - 65)
  else if 97 ≤ n ∧ n ≤ 122 then some (26 + (n - 97))
  else if 48 ≤ n ∧ n ≤ 57 then some (52 + (n - 48))
  else if n = 45 then some 62
  else if n = 95 then some 63
  else none

/-- URL-safe base64 encoding of a byte list, with `=` padding, three input
bytes per four output characters. -/
def b64encodeList : List Nat → List Char
  | [] => []
  | [a] => [b64char (a / 4), b64char (a % 4 * 16), '=', '=']
  | [a, b] => [b64char (a / 4), b64char (a % 4 * 16 + b / 16), b64char (b % 16 * 4), '=']
  | a :: b :: c :: rest =>
      b64char (a / 4) :: b64char (a % 4 * 16 + b / 16) :: b64char (b % 16 * 4 + c / 64)
        :: b64char (c % 64) :: b64encodeList rest

/-- URL-safe base64 decoding; `none` models Python's `binascii.Error`. -/
def b64decodeList : List Char → Option (List Nat)
  | [] => some []
  | c1 :: c2 :: c3 :: c4 :: rest =>
    match b64index c1, b64index c2 with
    | some i1, some i2 =>
      if c3 = '=' then
        if c4 = '=' ∧ rest = [] then some [i1 * 4 + i2 / 16] else none
      else
        match b64index c3 with
        | some i3 =>
          if c4 = '=' then
            if rest = [] then some [i1 * 4 + i2 / 16, i2 % 16 * 16 + i3 / 4] else none
          else
            match b64index c4 with
            | some i4 =>
              match b64decodeList rest with
              | some tail =>
                  some ((i1 * 4 + i2 / 16) :: (i2 % 16 * 16 + i3 / 4)
                    :: (i3 % 4 * 64 + i4) :: tail)
              | none => none
            | none => none
        | none => none
    | _, _ => none
  | _ => none

theorem b64index_b64char : ∀ n, n < 64 → b64index (b64char n) = some n := by decide

theorem b64char_ne_pad : ∀ n, n < 64 → b64char n ≠ '=' := by decide

theorem b64_roundtrip : ∀ (l : List Nat), (∀ b ∈ l, b < 256) →
    b64decodeList (b64encodeList l) = some l
  | [], _ => rfl
  | [a], h => by
    have ha : a < 256 := h a (by simp)
    have h1 := b64index_b64char (a / 4) (by omega)
    have h2 := b64index_b64char (a % 4 * 16) (by omega)
    simp only [b64encodeList, b64decodeList, h1, h2, if_pos rfl, and_self]
    refine congrArg some ?_
    simp only [List.cons.injEq, and_true]
    omega
  | [a, b], h => by
    have ha : a < 256 := h a (by simp)
    have hb : b < 256 := h b (by simp)
    have h1 := b64index_b64char (a / 4) (by omega)
    have h2 := b64index_b64char (a % 4 * 16 + b / 16) (by omega)
    have h3 := b64index_b64char (b % 16 * 4) (by omega)
    have n3 := b64char_ne_pad (b % 16 * 4) (by omega)
    simp only [b64encodeList, b64decodeList, h1, h2, h3, if_neg n3, if_pos rfl]
    refine congrArg some ?_
    simp only [List.cons.injEq, and_true]
    exact ⟨by omega, by omega⟩
  | a :: b :: c :: rest, h => by
    have ha : a < 256 := h a (by simp)
    have hb : b < 256 := h b (by simp)
    have hc : c < 256 := h c (by simp)
    have ih := b64_roundtrip rest (fun x hx => h x (by simp [hx]))
    have h1 := b64index_b64char (a / 4) (by omega)
    have h2 := b64index_b64char (a % 4 * 16 + b / 16) (by omega)
    have h3 := b64index_b64char (b % 16 * 4 + c / 64) (by omega)
    have h4 := b64index_b64char (c % 64) (by omega)
    have n3 := b64char_ne_pad (b % 16 * 4 + c / 64) (by omega)
    have n4 := b64char_ne_pad (c % 64) (by omega)
    simp only [b64encodeList, b64decodeList, h1, h2, h3, h4, if_neg n3, if_neg n4, ih]
    refine congrArg some ?_
    simp only [List.cons.injEq, and_true]
    exact ⟨by omega, by omega, by omega⟩

/-! ## Client-side cryptographic pipeline (`nsync/client.py`)

The key derivation and the authenticated cipher come from the external
`cryptography` library; they are modelled by their contracts (spec §4.1 and
§4.3): the KDF is a deterministic injective function of `(password, salt)`,
and Fernet decryption succeeds exactly when the decryption key equals the
encryption key, returning the original plaintext, and fails (raises
`InvalidToken`, modelled as `none`) otherwise.  The payload structure — a
JSON object mapping each file name to the URL-safe base64 encoding of its
bytes — is translated from `transfer_files` (client.py:46-52) and `download`
(client.py:97-107), with the JSON serialisation of the external `json`
module idealised as carrying the name/string association list opaquely. -/

/-- Modelled from the spec: PBKDF2-HMAC-SHA256 (client.py:37-43), a
deterministic key-derivation function of the password and salt whose outputs
for distinct inputs are distinct; modelled as the pair itself. -/
def pbkdf2Derive (password : String) (salt : List Nat) : String × List Nat :=
  (password, salt)

/-- A Fernet token: opaque ciphertext that determines its plaintext given the
encryption key.  The plaintext of the tokens produced by `transfer_files` is
the JSON object mapping file names to base64 strings. -/
structure FernetToken where
  key : String × List Nat
  msg : List (String × String)
  deriving DecidableEq

/-- Modelled from the spec: Fernet authenticated encryption
(client.py:44,52). -/
def fernetEncrypt (k : String × List Nat) (m : List (String × String)) : FernetToken :=
  FernetToken.mk k m

/-- Modelled from the spec: Fernet authenticated decryption (client.py:97);
verifies the HMAC before returning any plaintext, so it returns the plaintext
exactly when decrypting under the encryption key, and fails (`InvalidToken`,
modelled as `none`) under any other key or on any altered token. -/
def fernetDecrypt (k : String × List Nat) (t : FernetToken) : Option (List (String × String)) :=
  if t.key = k then some t.msg else none

/-- Python base64.urlsafe_b64encode followed by str decoding, on a byte string (client.py:50). -/
def b64encodeStr (l : List Nat) : String :=
  String.mk (b64encodeList l)

/-- Python base64.urlsafe_b64decode on a string (client.py:107). -/
def b64decodeStr (s : String) : Option (List Nat) :=
  b64decodeList s.toList

/-- The payload built by the loop in `transfer_files` (client.py:46-50):
each file's bytes are base64-encoded into the JSON object. -/
def encodeFiles (files : List (String × List Nat)) : List (String × String) :=
  files.map (fun e => (e.1, b64encodeStr e.2))

/-- The inverse performed by `download` (client.py:104-107): each entry of the
decrypted JSON object is base64-decoded before being written out. -/
def decodeFiles : List (String × String) → Option (List (String × List Nat))
  | [] => some []
  | e :: rest =>
    match b64decodeStr e.2, decodeFiles rest with
    | some bs, some tail => some ((e.1, bs) :: tail)
    | _, _ => none

/-- The encode–encrypt path of `transfer_files` (client.py:35-52): derive the
key from the password and salt, base64-encode the files into the JSON
payload, and encrypt it into the token sent to the server. -/
def transferEncrypt (password : String) (salt : List Nat)
    (files : List (String × List Nat)) : FernetToken :=
  fernetEncrypt (pbkdf2Derive password salt) (encodeFiles files)

/-- The decrypt–decode path of `download` (client.py:89-107): derive the key
from the password and salt, decrypt the token, and base64-decode every entry
of the resulting JSON payload. -/
def downloadDecrypt (password : String) (salt : List Nat)
    (t : FernetToken) : Option (List (String × List Nat)) :=
  (fernetDecrypt (pbkdf2Derive password salt) t).bind decodeFiles

theorem decodeFiles_encodeFiles (F : List (String × List Nat))
    (h : ∀ e ∈ F, ∀ b ∈ e.2, b < 256) : decodeFiles (encodeFiles F) = some F := by
  induction F with
  | nil => rfl
  | cons e rest ih =>
    obtain ⟨n, bs⟩ := e
    have hbs : b64decodeStr (b64encodeStr bs) = some bs := by
      show b64decodeList (String.toList (String.mk (b64encodeList bs))) = some bs
      exact b64_roundtrip bs (h (n, bs) (by simp))
    have ih2 := ih (fun x hx => h x (by simp [hx]))
    simp only [encodeFiles, List.map_cons] at *
    simp only [decodeFiles, hbs, ih2]

/-- C1.  The client's encode–encrypt path and decrypt–decode path are
mutually inverse: for every password, 16-byte salt, and file mapping (all
content bytes being raw bytes, i.e. below 256), decrypting with the key
derived from the same password and salt the token produced by
`transfer_files`, then base64-decoding every entry, recovers exactly the
original file mapping. -/
theorem c1_encrypt_decrypt_roundtrip (P : String) (S : List Nat) (hS : S.length = 16)
    (F : List (String × List Nat)) (hF : ∀ e ∈ F, ∀ b ∈ e.2, b < 256) :
    downloadDecrypt P S (transferEncrypt P S F) = some F := by
  show (fernetDecrypt (pbkdf2Derive P S)
    (fernetEncrypt (pbkdf2Derive P S) (encodeFiles F))).bind decodeFiles = some F
  rw [show fernetDecrypt (pbkdf2Derive P S)
      (fernetEncrypt (pbkdf2Derive P S) (encodeFiles F)) = some (encodeFiles F) from
    if_pos rfl]
  exact decodeFiles_encodeFiles F hF

theorem c1_encrypt_decrypt_roundtrip_witness :
    ([0, 1, 2, 3, 4, 5, 6, 7, 8, 9, 10, 11, 12, 13, 14, 15] : List Nat).length = 16 ∧
    downloadDecrypt "correct horse" [0, 1, 2, 3, 4, 5, 6, 7, 8, 9, 10, 11, 12, 13, 14, 15]
      (transferEncrypt "correct horse" [0, 1, 2, 3, 4, 5, 6, 7, 8, 9, 10, 11, 12, 13, 14, 15]
        [("a.txt", [104, 101, 108, 108, 111]), ("b.bin", [0, 255])]) =
      some [("a.txt", [104, 101, 108, 108, 111]), ("b.bin", [0, 255])] :=
  ⟨by decide,
   c1_encrypt_decrypt_roundtrip "correct horse"
     [0, 1, 2, 3, 4, 5, 6, 7, 8, 9, 10, 11, 12, 13, 14, 15] (by decide)
     [("a.txt", [104, 101, 108, 108, 111]), ("b.bin", [0, 255])] (by decide)⟩

/-- C5.  Decrypting a token produced under the key derived from password `P`
and salt `S` with the key derived from any other password `P'` (and the same
salt) fails with a `CryptoError` (`none`) and never returns any plaintext. -/
theorem c5_wrong_password_rejected (P Pbad : String) (hne : Pbad ≠ P)
    (S : List Nat) (F : List (String × List Nat)) :
    fernetDecrypt (pbkdf2Derive Pbad S) (transferEncrypt P S F) = none := by
  show (if (pbkdf2Derive P S : String × List Nat) = pbkdf2Derive Pbad S
    then some (encodeFiles F) else none) = none
  rw [if_neg]
  intro hcontra
  exact hne (congrArg Prod.fst hcontra).symm

theorem c5_wrong_password_rejected_witness :
    ("horse battery" : String) ≠ "correct horse" ∧
    fernetDecrypt (pbkdf2Derive "horse battery" [0, 0, 0, 0])
      (transferEncrypt "correct horse" [0, 0, 0, 0] [("a.txt", [104, 105])]) = none :=
  ⟨by decide,
   c5_wrong_password_rejected "correct horse" "horse battery" (by decide)
     [0, 0, 0, 0] [("a.txt", [104, 105])]⟩


/-! ## Server model (`nsync/server.py`)

The `transfer` handler (server.py:26-73) routes POSTed form data onto a Redis
TTL store.  Redis (an external collaborator) is modelled as an association
list of entries `(key, value, absolute expiry time)` with time as natural
seconds: `SETEX k secs v` writes `v` under `k` expiring `secs` seconds from
now, `GET` returns the value while the current time is before the expiry, and
`DEL` removes the key.  The haikunator-generated storage key, and the request
time `datetime.datetime.now`, are inputs of the handler.  Python truthiness
of the retrieved form fields and of the retrieved bytes (`if key:`,
`if value and salt:`) is `truthy`: present and non-empty. -/

/-- The POSTed form fields consulted by `transfer`; `none` models an absent
field. -/
structure Form where
  action : Option String
  file : Option String
  salt : Option String
  key : Option String
  deriving DecidableEq

/-- The JSON response of `transfer` together with its HTTP status code;
absent JSON fields are `none`. -/
structure TResponse where
  statusCode : Nat
  action : String
  status : Option String
  key : Option String
  expiration : Option Nat
  file : Option String
  salt : Option String
  deriving DecidableEq

/-- Reading the action field of the form raises KeyError when it is absent; the handler
has no exception handling, so the request fails with an unhandled fault. -/
inductive HandlerError where
  | keyError
  deriving DecidableEq

/-- The Redis database: entries of key, value, and absolute expiry time. -/
abbrev Redis := List (String × String × Nat)

/-- Redis `DEL k`. -/
def rdel (r : Redis) (k : String) : Redis :=
  r.filter (fun e => !(e.1 == k))

/-- Redis `SETEX k secs v` issued at time `now`. -/
def rsetex (r : Redis) (k : String) (secs : Nat) (v : String) (now : Nat) : Redis :=
  (k, v, now + secs) :: rdel r k

/-- Redis `GET k` at time `now`: the stored value while it has not expired. -/
def rget (r : Redis) (k : String) (now : Nat) : Option String :=
  match r.find? (fun e => e.1 == k) with
  | some e => if now < e.2.2 then some e.2.1 else none
  | none => none

/-- Python truthiness of an optional string: present and non-empty.  This is
`if key:` on `data.get('key')` (server.py:52) and `if value and salt:` on the
bytes returned by Redis (server.py:55). -/
def truthy : Option String → Bool
  | none => false
  | some s => !(s == "")

/-- The TTL secs = 15 * 60 (server.py:40), shared by the two entries. -/
def SECS : Nat := 15 * 60

/-- The POST handler `transfer` (server.py:26-73), translated branch by
branch.  Inputs: the parsed form, the haikunator-generated fresh key, the
request time, and the Redis state.  Output: the JSON response with its HTTP
status code and the new Redis state, or the unhandled `KeyError` raised by
reading the absent action field of the form. -/
def transfer (data : Form) (freshKey : String) (now : Nat) (r : Redis) :
    Except HandlerError (TResponse × Redis) :=
  match data.action with
  | none => Except.error HandlerError.keyError
  | some action =>
    if action = "store" then
      let r1 := rsetex r freshKey SECS (data.file.getD "") now
      let expiration := now + SECS
      let r2 := rsetex r1 (freshKey ++ "-salt") SECS (data.salt.getD "") now
      Except.ok ({ statusCode := 200, action := action, status := some "stored",
                   key := some freshKey, expiration := some expiration,
                   file := none, salt := none }, r2)
    else if action = "get" then
      if truthy data.key then
        let k := data.key.getD ""
        let value := rget r k now
        let saltv := rget r (k ++ "-salt") now
        if truthy value && truthy saltv then
          Except.ok ({ statusCode := 200, action := action, status := some "available",
                       key := none, expiration := none,
                       file := value, salt := saltv }, rdel r k)
        else
          Except.ok ({ statusCode := 400, action := action, status := some "expired key",
                       key := none, expiration := none, file := none, salt := none }, r)
      else
        Except.ok ({ statusCode := 400, action := action, status := some "key required",
                     key := none, expiration := none, file := none, salt := none }, r)
    else
      Except.ok ({ statusCode := 400, action := action, status := some "Unknown Action",
                   key := none, expiration := none, file := none, salt := none }, r)

/-- The store request sent by `transfer_files` (client.py:54). -/
def storeForm (f s : String) : Form :=
  Form.mk (some "store") (some f) (some s) none

/-- The get request sent by `download` (client.py:78). -/
def getForm (k : String) : Form :=
  Form.mk (some "get") none none (some k)

/-- The Redis state produced by the store branch (server.py:41-44): the token
under the fresh key and the salt under the derived `-salt` address, both with
the shared TTL. -/
def storedState (r : Redis) (K f s : String) (t0 : Nat) : Redis :=
  rsetex (rsetex r K SECS f t0) (K ++ "-salt") SECS s t0

/-- Running one request against the store, keeping the prior state when the
handler raises. -/
def reqStep (q : Form × String × Nat) (r : Redis) : Redis :=
  match transfer q.1 q.2.1 q.2.2 r with
  | Except.error _ => r
  | Except.ok p => p.2

/-- Running a sequence of requests against the store. -/
def runReqs : List (Form × String × Nat) → Redis → Redis
  | [], r => r
  | q :: rest, r => runReqs rest (reqStep q r)

/-! ## Store lemmas -/

theorem appendSalt_ne (k : String) : k ++ "-salt" ≠ k := by
  intro h
  have h2 : (k ++ "-salt").length = k.length := congrArg String.length h
  rw [String.length_append] at h2
  have h3 : ("-salt" : String).length = 5 := rfl
  omega

theorem rget_cons_eq (k v : String) (ex t : Nat) (r : Redis) :
    rget ((k, v, ex) :: r) k t = if t < ex then some v else none := by
  simp [rget, List.find?]

theorem rget_cons_ne (k1 k : String) (h : k1 ≠ k) (v : String) (ex t : Nat) (r : Redis) :
    rget ((k1, v, ex) :: r) k t = rget r k t := by
  simp only [rget, List.find?]
  rw [show ((k1, v, ex).1 == k) = false from by simpa using h]

theorem rget_rdel_ne (r : Redis) (k k' : String) (h : k' ≠ k) (t : Nat) :
    rget (rdel r k) k' t = rget r k' t := by
  induction r with
  | nil => rfl
  | cons e rest ih =>
    obtain ⟨k1, v, ex⟩ := e
    by_cases h1 : k1 = k
    · subst h1
      rw [show rdel ((k1, v, ex) :: rest) k1 = rdel rest k1 from by simp [rdel]]
      rw [ih, rget_cons_ne k1 k' (fun hh => h hh.symm)]
    · rw [show rdel ((k1, v, ex) :: rest) k = (k1, v, ex) :: rdel rest k from by
        simp [rdel, h1]]
      by_cases h2 : k1 = k'
      · subst h2
        rw [rget_cons_eq, rget_cons_eq]
      · rw [rget_cons_ne k1 k' h2, rget_cons_ne k1 k' h2, ih]

/-- All entries stored at address `a` hold the empty value.  The handler's
truthiness test treats such an address exactly like an absent one. -/
def keyBlank (r : Redis) (a : String) : Prop :=
  ∀ e ∈ r, e.1 = a → e.2.1 = ""

theorem keyBlank_rdel (r : Redis) (a k : String) (h : keyBlank r a) :
    keyBlank (rdel r k) a :=
  fun e he => h e (List.mem_of_mem_filter he)

theorem keyBlank_rdel_self (r : Redis) (a : String) : keyBlank (rdel r a) a := by
  intro e he hea
  have := List.of_mem_filter he
  simp [hea] at this

theorem keyBlank_rsetex (r : Redis) (a k v : String) (secs now : Nat)
    (h : keyBlank r a) (hk : k ≠ a) : keyBlank (rsetex r k secs v now) a := by
  intro e he hea
  rcases List.mem_cons.mp he with h1 | h1
  · subst h1; exact absurd hea hk
  · exact keyBlank_rdel r a k h e h1 hea

theorem keyBlank_rsetex_empty (r : Redis) (a : String) (secs now : Nat) :
    keyBlank (rsetex r a secs "" now) a := by
  intro e he hea
  rcases List.mem_cons.mp he with h1 | h1
  · subst h1; rfl
  · exact keyBlank_rdel_self r a e h1 hea

theorem truthy_rget_blank (r : Redis) (a : String) (h : keyBlank r a) (t : Nat) :
    truthy (rget r a t) = false := by
  simp only [rget]
  cases hf : r.find? (fun e => e.1 == a) with
  | none => rfl
  | some e =>
    have hmem := List.mem_of_find?_eq_some hf
    have hpred := List.find?_some hf
    have hea : e.1 = a := by simpa using hpred
    have hval : e.2.1 = "" := h e hmem hea
    show truthy (if t < e.2.2 then some e.2.1 else none) = false
    rw [hval]
    by_cases hlt : t < e.2.2
    · rw [if_pos hlt]; rfl
    · rw [if_neg hlt]; rfl


/-! ## Branch evaluation lemmas for `transfer` -/

theorem transfer_store_eval (f? s? k? : Option String) (fk : String) (t : Nat) (r : Redis) :
    transfer (Form.mk (some "store") f? s? k?) fk t r =
      Except.ok (TResponse.mk 200 "store" (some "stored") (some fk) (some (t + SECS)) none none,
        storedState r fk (f?.getD "") (s?.getD "") t) := rfl

theorem transfer_get_eval (f? s? k? : Option String) (fk : String) (t : Nat) (r : Redis) :
    transfer (Form.mk (some "get") f? s? k?) fk t r =
      if truthy k? then
        if truthy (rget r (k?.getD "") t) && truthy (rget r (k?.getD "" ++ "-salt") t) then
          Except.ok (TResponse.mk 200 "get" (some "available") none none
            (rget r (k?.getD "") t) (rget r (k?.getD "" ++ "-salt") t), rdel r (k?.getD ""))
        else
          Except.ok (TResponse.mk 400 "get" (some "expired key") none none none none, r)
      else
        Except.ok (TResponse.mk 400 "get" (some "key required") none none none none, r) := rfl

theorem transfer_other_eval (act : String) (h1 : act ≠ "store") (h2 : act ≠ "get")
    (f? s? k? : Option String) (fk : String) (t : Nat) (r : Redis) :
    transfer (Form.mk (some act) f? s? k?) fk t r =
      Except.ok (TResponse.mk 400 act (some "Unknown Action") none none none none, r) := by
  simp [transfer, h1, h2]

theorem transfer_preserves_blank (form : Form) (fk : String) (now : Nat) (r r' : Redis)
    (res : TResponse) (hstep : transfer form fk now r = Except.ok (res, r'))
    (a : String) (h1 : fk ≠ a) (h2 : fk ++ "-salt" ≠ a) (hb : keyBlank r a) :
    keyBlank r' a := by
  obtain ⟨act?, f?, s?, k?⟩ := form
  cases act? with
  | none => exact absurd hstep (by simp [transfer])
  | some act =>
    by_cases hst : act = "store"
    · subst hst
      rw [transfer_store_eval] at hstep
      injection hstep with hpair
      have hr : r' = storedState r fk (f?.getD "") (s?.getD "") now :=
        (congrArg Prod.snd hpair).symm
      rw [hr]
      exact keyBlank_rsetex _ _ _ _ _ _
        (keyBlank_rsetex _ _ _ _ _ _ hb h1) h2
    · by_cases hg : act = "get"
      · subst hg
        rw [transfer_get_eval] at hstep
        split at hstep
        · split at hstep
          · injection hstep with hpair
            have hr : r' = rdel r (k?.getD "") := (congrArg Prod.snd hpair).symm
            rw [hr]
            exact keyBlank_rdel r a _ hb
          · injection hstep with hpair
            have hr : r' = r := (congrArg Prod.snd hpair).symm
            rw [hr]; exact hb
        · injection hstep with hpair
          have hr : r' = r := (congrArg Prod.snd hpair).symm
          rw [hr]; exact hb
      · rw [transfer_other_eval act hst hg] at hstep
        injection hstep with hpair
        have hr : r' = r := (congrArg Prod.snd hpair).symm
        rw [hr]; exact hb

theorem reqStep_preserves_blank (q : Form × String × Nat) (r : Redis) (a : String)
    (h1 : q.2.1 ≠ a) (h2 : q.2.1 ++ "-salt" ≠ a) (hb : keyBlank r a) :
    keyBlank (reqStep q r) a := by
  unfold reqStep
  cases htr : transfer q.1 q.2.1 q.2.2 r with
  | error e => exact hb
  | ok p =>
    exact transfer_preserves_blank q.1 q.2.1 q.2.2 r p.2 p.1 (by rw [htr]) a h1 h2 hb

theorem runReqs_preserves_blank (reqs : List (Form × String × Nat)) (r : Redis) (a : String)
    (h : ∀ q ∈ reqs, q.2.1 ≠ a ∧ q.2.1 ++ "-salt" ≠ a) (hb : keyBlank r a) :
    keyBlank (runReqs reqs r) a := by
  induction reqs generalizing r with
  | nil => exact hb
  | cons q rest ih =>
    have hq := h q (by simp)
    exact ih (reqStep q r) (fun x hx => h x (by simp [hx]))
      (reqStep_preserves_blank q r a hq.1 hq.2 hb)

theorem transfer_get_expired (K fk : String) (hK : K ≠ "") (t : Nat) (r : Redis)
    (hb : keyBlank r K ∨ keyBlank r (K ++ "-salt")) :
    transfer (getForm K) fk t r =
      Except.ok (TResponse.mk 400 "get" (some "expired key") none none none none, r) := by
  have ht : truthy (some K) = true := by simp [truthy, hK]
  have hcond : (truthy (rget r K t) && truthy (rget r (K ++ "-salt") t)) = false := by
    rcases hb with hx | hx
    · rw [truthy_rget_blank r K hx t]; rfl
    · rw [truthy_rget_blank r (K ++ "-salt") hx t]
      exact Bool.and_false _
  show transfer (Form.mk (some "get") none none (some K)) fk t r = _
  rw [transfer_get_eval]
  simp only [Option.getD_some, ht, if_true, hcond]
  rfl

theorem rget_storedState_key (r : Redis) (K f s : String) (t0 t : Nat) :
    rget (storedState r K f s t0) K t = if t < t0 + SECS then some f else none := by
  unfold storedState rsetex
  rw [rget_cons_ne _ _ (appendSalt_ne K)]
  rw [rget_rdel_ne _ _ _ (fun hh => appendSalt_ne K hh.symm)]
  rw [rget_cons_eq]

theorem rget_storedState_salt (r : Redis) (K f s : String) (t0 t : Nat) :
    rget (storedState r K f s t0) (K ++ "-salt") t =
      if t < t0 + SECS then some s else none := by
  unfold storedState rsetex
  rw [rget_cons_eq]

/-- C6.  A store request is answered with HTTP 200, status `stored`, the
freshly generated storage key, and an expiration equal to the request time
plus the TTL; the TTL is `15 * 60 = 900` seconds, and the token entry and the
salt entry are both written with exactly that lifetime (readable strictly
before `t0 + 900`, gone from then on). -/
theorem c6_store_response (f? s? k? : Option String) (fk : String) (t0 : Nat) (r : Redis) :
    SECS = 900 ∧
    transfer (Form.mk (some "store") f? s? k?) fk t0 r =
      Except.ok (TResponse.mk 200 "store" (some "stored") (some fk) (some (t0 + 900)) none none,
        storedState r fk (f?.getD "") (s?.getD "") t0) ∧
    (∀ t, rget (storedState r fk (f?.getD "") (s?.getD "") t0) fk t =
      if t < t0 + 900 then some (f?.getD "") else none) ∧
    (∀ t, rget (storedState r fk (f?.getD "") (s?.getD "") t0) (fk ++ "-salt") t =
      if t < t0 + 900 then some (s?.getD "") else none) := by
  refine ⟨rfl, transfer_store_eval f? s? k? fk t0 r, ?_, ?_⟩
  · intro t
    rw [rget_storedState_key]
    rfl
  · intro t
    rw [rget_storedState_salt]
    rfl

/-- C9.  A get request whose `key` field is absent or the empty string takes
the `key required` branch: HTTP 400, status `key required`, the store left
untouched, with a response that does not depend on the store at all. -/
theorem c9_empty_key_required (f? s? k? : Option String)
    (hk : k? = none ∨ k? = some "") (fk : String) (t : Nat) (r : Redis) :
    transfer (Form.mk (some "get") f? s? k?) fk t r =
      Except.ok (TResponse.mk 400 "get" (some "key required") none none none none, r) := by
  have ht : truthy k? = false := by rcases hk with h | h <;> simp [h, truthy]
  rw [transfer_get_eval]
  simp only [ht, Bool.false_eq_true, if_false]

theorem c9_empty_key_required_witness :
    ((some "" : Option String) = none ∨ (some "" : Option String) = some "") ∧
    transfer (Form.mk (some "get") none none (some "")) "fresh-key" 5 [("k", "v", 100)] =
      Except.ok (TResponse.mk 400 "get" (some "key required") none none none none,
        [("k", "v", 100)]) :=
  ⟨Or.inr rfl,
   c9_empty_key_required none none (some "") (Or.inr rfl) "fresh-key" 5 [("k", "v", 100)]⟩

/-- C4 (amended).  For every POST body that does contain an `action` field,
the handler returns a structured response — HTTP 200 on success and HTTP 400
on bad input — and never raises.  (A body with no `action` field instead
raises an unhandled KeyError from the action lookup; see the
counterexample.) -/
theorem c4_structured_response_amended (form : Form) (a : String)
    (ha : form.action = some a) (fk : String) (t : Nat) (r : Redis) :
    ∃ res r2, transfer form fk t r = Except.ok (res, r2) ∧
      (res.statusCode = 200 ∨ res.statusCode = 400) := by
  obtain ⟨act?, f?, s?, k?⟩ := form
  have ha2 : act? = some a := ha
  subst ha2
  by_cases hst : a = "store"
  · subst hst
    exact ⟨_, _, transfer_store_eval f? s? k? fk t r, Or.inl rfl⟩
  · by_cases hg : a = "get"
    · subst hg
      rw [transfer_get_eval]
      by_cases htk : truthy k? = true
      · rw [if_pos htk]
        by_cases hav : (truthy (rget r (k?.getD "") t) &&
            truthy (rget r (k?.getD "" ++ "-salt") t)) = true
        · rw [if_pos hav]
          exact ⟨_, _, rfl, Or.inl rfl⟩
        · rw [if_neg hav]
          exact ⟨_, _, rfl, Or.inr rfl⟩
      · rw [if_neg htk]
        exact ⟨_, _, rfl, Or.inr rfl⟩
    · exact ⟨_, _, transfer_other_eval a hst hg f? s? k? fk t r, Or.inr rfl⟩

theorem c4_structured_response_amended_witness :
    (Form.mk (some "gimme") none none none).action = some "gimme" ∧
    (∃ res r2, transfer (Form.mk (some "gimme") none none none) "fresh" 0 [] =
      Except.ok (res, r2) ∧ (res.statusCode = 200 ∨ res.statusCode = 400)) :=
  ⟨rfl, c4_structured_response_amended (Form.mk (some "gimme") none none none) "gimme"
    rfl "fresh" 0 []⟩

/-- C4 counterexample.  A POST body with no `action` field — the concrete
store-shaped body carrying only file and salt fields — makes the action lookup
raise an unhandled `KeyError` instead of producing a structured 400
response. -/
theorem c4_counterexample_missing_action :
    transfer (Form.mk none (some "token") (some "salty") none) "fresh" 0 [] =
      Except.error HandlerError.keyError := rfl

/-- C3 (amended).  A successful get on key `K` responds `available` with the
stored token and salt and deletes the token entry — afterwards no entry for
`K` remains — but the salt entry is NOT deleted: every lookup of
`K ++ "-salt"` is exactly as before the get (it survives until TTL expiry). -/
theorem c3_delete_on_read_amended (r : Redis) (K fk v s : String) (t : Nat)
    (hK : K ≠ "") (hv : rget r K t = some v) (hvne : v ≠ "")
    (hs : rget r (K ++ "-salt") t = some s) (hsne : s ≠ "") :
    transfer (getForm K) fk t r =
      Except.ok (TResponse.mk 200 "get" (some "available") none none (some v) (some s),
        rdel r K) ∧
    (∀ e ∈ rdel r K, e.1 ≠ K) ∧
    (∀ t2, rget (rdel r K) (K ++ "-salt") t2 = rget r (K ++ "-salt") t2) := by
  have ht : truthy (some K) = true := by simp [truthy, hK]
  have hts : (truthy (some v) && truthy (some s)) = true := by simp [truthy, hvne, hsne]
  refine ⟨?_, ?_, ?_⟩
  · show transfer (Form.mk (some "get") none none (some K)) fk t r = _
    rw [transfer_get_eval]
    simp only [Option.getD_some, hv, hs, ht, hts, if_true]
  · intro e he hea
    have hmem := List.of_mem_filter he
    simp [hea] at hmem
  · intro t2
    exact rget_rdel_ne r K (K ++ "-salt") (appendSalt_ne K) t2

/-- C3 counterexample.  After a successful get on `k` (store holding token
`ftok` and salt `slt` under the two addresses), the response is `available`,
yet the salt entry `k-salt` is still present in the resulting store — the
get deletes only the token entry, not the whole record. -/
theorem c3_counterexample_salt_remains :
    transfer (getForm "k") "fresh" 1 [("k", "ftok", 900), ("k-salt", "slt", 900)] =
      Except.ok (TResponse.mk 200 "get" (some "available") none none
        (some "ftok") (some "slt"), [("k-salt", "slt", 900)]) ∧
    rget [("k-salt", "slt", 900)] ("k" ++ "-salt") 1 = some "slt" :=
  ⟨rfl, rfl⟩

/-- C2 (amended).  After a store of a non-empty token `f` and non-empty salt
`s` under fresh key `K`, a first get on `K` issued before the TTL elapses
returns `available` (HTTP 200) with the stored token and salt and deletes the
token entry; and thereafter — across any further requests whose fresh store
keys do not collide with `K`'s addresses — every get on `K` returns
`expired key` (HTTP 400). -/
theorem c2_one_time_retrieval_amended (r0 : Redis) (K f s fk1 : String)
    (hf : f ≠ "") (hs : s ≠ "") (hK : K ≠ "") (t0 t1 : Nat) (hTTL : t1 < t0 + SECS) :
    transfer (storeForm f s) K t0 r0 =
      Except.ok (TResponse.mk 200 "store" (some "stored") (some K) (some (t0 + SECS)) none none,
        storedState r0 K f s t0) ∧
    transfer (getForm K) fk1 t1 (storedState r0 K f s t0) =
      Except.ok (TResponse.mk 200 "get" (some "available") none none (some f) (some s),
        rdel (storedState r0 K f s t0) K) ∧
    ∀ reqs, (∀ q ∈ reqs, q.2.1 ≠ K ∧ q.2.1 ++ "-salt" ≠ K) →
      ∀ fk2 t2,
        transfer (getForm K) fk2 t2 (runReqs reqs (rdel (storedState r0 K f s t0) K)) =
          Except.ok (TResponse.mk 400 "get" (some "expired key") none none none none,
            runReqs reqs (rdel (storedState r0 K f s t0) K)) := by
  refine ⟨transfer_store_eval (some f) (some s) none K t0 r0, ?_, ?_⟩
  · show transfer (Form.mk (some "get") none none (some K)) fk1 t1 _ = _
    rw [transfer_get_eval]
    have ht : truthy (some K) = true := by simp [truthy, hK]
    have hv : rget (storedState r0 K f s t0) K t1 = some f := by
      rw [rget_storedState_key, if_pos hTTL]
    have hsv : rget (storedState r0 K f s t0) (K ++ "-salt") t1 = some s := by
      rw [rget_storedState_salt, if_pos hTTL]
    have hts : (truthy (some f) && truthy (some s)) = true := by simp [truthy, hf, hs]
    simp only [Option.getD_some, hv, hsv, ht, hts, if_true]
  · intro reqs hreqs fk2 t2
    have hblank : keyBlank (rdel (storedState r0 K f s t0) K) K :=
      keyBlank_rdel_self _ K
    have h2 : keyBlank (runReqs reqs (rdel (storedState r0 K f s t0) K)) K :=
      runReqs_preserves_blank reqs _ K hreqs hblank
    exact transfer_get_expired K fk2 hK t2 _ (Or.inl h2)

theorem c2_one_time_retrieval_amended_witness :
    (("a" : String) ≠ "" ∧ ("b" : String) ≠ "" ∧ ("k" : String) ≠ "" ∧ 0 < 0 + SECS) ∧
    (transfer (storeForm "a" "b") "k" 0 [] =
      Except.ok (TResponse.mk 200 "store" (some "stored") (some "k") (some (0 + SECS)) none none,
        storedState [] "k" "a" "b" 0) ∧
    transfer (getForm "k") "z" 0 (storedState [] "k" "a" "b" 0) =
      Except.ok (TResponse.mk 200 "get" (some "available") none none (some "a") (some "b"),
        rdel (storedState [] "k" "a" "b" 0) "k") ∧
    ∀ reqs, (∀ q ∈ reqs, q.2.1 ≠ "k" ∧ q.2.1 ++ "-salt" ≠ "k") →
      ∀ fk2 t2,
        transfer (getForm "k") fk2 t2 (runReqs reqs (rdel (storedState [] "k" "a" "b" 0) "k")) =
          Except.ok (TResponse.mk 400 "get" (some "expired key") none none none none,
            runReqs reqs (rdel (storedState [] "k" "a" "b" 0) "k"))) :=
  ⟨⟨by decide, by decide, by decide, by decide⟩,
   c2_one_time_retrieval_amended [] "k" "a" "b" "z"
     (by decide) (by decide) (by decide) 0 0 (by decide)⟩

/-- C2 counterexample.  A store is "successful" (it answers `stored` and
issues a key) even when the token field is empty; the very first get on that
key then returns `expired key` with HTTP 400, not `available` with HTTP
200. -/
theorem c2_counterexample_first_get_not_available :
    transfer (storeForm "" "b") "k" 0 [] =
      Except.ok (TResponse.mk 200 "store" (some "stored") (some "k") (some 900) none none,
        [("k-salt", "b", 900), ("k", "", 900)]) ∧
    transfer (getForm "k") "z" 1 [("k-salt", "b", 900), ("k", "", 900)] =
      Except.ok (TResponse.mk 400 "get" (some "expired key") none none none none,
        [("k-salt", "b", 900), ("k", "", 900)]) :=
  ⟨rfl, rfl⟩

/-- C8.  A store whose `file` field or `salt` field is missing or empty still
answers `stored` with a key and the full TTL expiration, but the record is
never retrievable: every subsequent get on that key — at any time, even
before the TTL elapses, and across any other non-colliding requests — returns
`expired key` with HTTP 400, because the handler's truthiness test treats an
empty stored value or salt like an absent record. -/
theorem c8_empty_store_unretrievable (r0 : Redis) (f? s? : Option String)
    (hempty : f?.getD "" = "" ∨ s?.getD "" = "") (K : String) (hK : K ≠ "") (t0 : Nat) :
    transfer (Form.mk (some "store") f? s? none) K t0 r0 =
      Except.ok (TResponse.mk 200 "store" (some "stored") (some K) (some (t0 + SECS)) none none,
        storedState r0 K (f?.getD "") (s?.getD "") t0) ∧
    ∀ reqs, (∀ q ∈ reqs, q.2.1 ≠ K ∧ q.2.1 ++ "-salt" ≠ K ∧
        q.2.1 ≠ K ++ "-salt" ∧ q.2.1 ++ "-salt" ≠ K ++ "-salt") →
      ∀ fk t, transfer (getForm K) fk t
          (runReqs reqs (storedState r0 K (f?.getD "") (s?.getD "") t0)) =
        Except.ok (TResponse.mk 400 "get" (some "expired key") none none none none,
          runReqs reqs (storedState r0 K (f?.getD "") (s?.getD "") t0)) := by
  refine ⟨transfer_store_eval f? s? none K t0 r0, ?_⟩
  intro reqs hreqs fk t
  rcases hempty with hf | hs
  · have hb0 : keyBlank (storedState r0 K (f?.getD "") (s?.getD "") t0) K := by
      rw [hf]
      exact keyBlank_rsetex _ _ _ _ _ _ (keyBlank_rsetex_empty r0 K SECS t0) (appendSalt_ne K)
    have hb := runReqs_preserves_blank reqs _ K
      (fun q hq => ⟨(hreqs q hq).1, (hreqs q hq).2.1⟩) hb0
    exact transfer_get_expired K fk hK t _ (Or.inl hb)
  · have hb0 : keyBlank (storedState r0 K (f?.getD "") (s?.getD "") t0) (K ++ "-salt") := by
      rw [hs]
      exact keyBlank_rsetex_empty _ (K ++ "-salt") SECS t0
    have hb := runReqs_preserves_blank reqs _ (K ++ "-salt")
      (fun q hq => ⟨(hreqs q hq).2.2.1, (hreqs q hq).2.2.2⟩) hb0
    exact transfer_get_expired K fk hK t _ (Or.inr hb)

theorem c8_empty_store_unretrievable_witness :
    (((some "" : Option String).getD "" = "" ∨ (some "b" : Option String).getD "" = "") ∧
      ("k" : String) ≠ "") ∧
    (transfer (Form.mk (some "store") (some "") (some "b") none) "k" 0 [] =
      Except.ok (TResponse.mk 200 "store" (some "stored") (some "k") (some (0 + SECS)) none none,
        storedState [] "k" ((some "" : Option String).getD "")
          ((some "b" : Option String).getD "") 0) ∧
    ∀ reqs, (∀ q ∈ reqs, q.2.1 ≠ "k" ∧ q.2.1 ++ "-salt" ≠ "k" ∧
        q.2.1 ≠ "k" ++ "-salt" ∧ q.2.1 ++ "-salt" ≠ "k" ++ "-salt") →
      ∀ fk t, transfer (getForm "k") fk t
          (runReqs reqs (storedState [] "k" ((some "" : Option String).getD "")
            ((some "b" : Option String).getD "") 0)) =
        Except.ok (TResponse.mk 400 "get" (some "expired key") none none none none,
          runReqs reqs (storedState [] "k" ((some "" : Option String).getD "")
            ((some "b" : Option String).getD "") 0))) :=
  ⟨⟨Or.inl rfl, by decide⟩,
   c8_empty_store_unretrievable [] (some "") (some "b") (Or.inl rfl) "k" (by decide) 0⟩

/-! ## Client response handling (`nsync/client.py`)

`transfer_files` (client.py:54-65) and `download` (client.py:78-111) both
post to the server, try to parse the response body as JSON (an unparseable
body raises an `API Error` carrying the status code and raw text), then
raise an `API Error` carrying the parsed data when the status code is not
200, and only then assign `self.last_data`.  The HTTP exchange itself is the
external `httpx` collaborator; the response is an input. -/

/-- An HTTP response as seen by the client: status code, the parsed JSON body
(`none` when `response.json()` raises), and the raw text. -/
structure HttpResp (α : Type) where
  statusCode : Nat
  jsonBody : Option α
  text : String

/-- The `API Error` exceptions raised by `transfer_files` and `download`:
`parseFailed` (client.py:59,83) carries the status code and raw body text,
`badStatus` (client.py:62,86) carries the parsed response data. -/
inductive ApiErr (α : Type) where
  | parseFailed (statusCode : Nat) (text : String)
  | badStatus (rdata : α)

/-- The response-processing tail of `transfer_files` (client.py:54-65),
threading the client's `last_data` attribute explicitly: parse the body or
raise, check the status code or raise, and only on success assign
`last_data` and return the parsed data. -/
def transferFilesResp {α : Type} (resp : HttpResp α) (last : Option α) :
    Option α × Except (ApiErr α) α :=
  match resp.jsonBody with
  | none => (last, Except.error (ApiErr.parseFailed resp.statusCode resp.text))
  | some rdata =>
    if resp.statusCode ≠ 200 then (last, Except.error (ApiErr.badStatus rdata))
    else (some rdata, Except.ok rdata)

/-- C7 (amended).  `transfer_files` raises an `API Error` exactly when the
response body is not parseable JSON (then the error carries the status code
and the raw body) or the status code differs from 200 (then the error
carries the parsed body — note: code 201, though 2xx, also raises); in both
error cases `last_data` is left unchanged, and on success `last_data` is set
to the parsed response, which is also returned. -/
theorem c7_transfer_files_errors_amended {α : Type} (resp : HttpResp α) (last : Option α) :
    (resp.jsonBody = none →
      transferFilesResp resp last =
        (last, Except.error (ApiErr.parseFailed resp.statusCode resp.text))) ∧
    (∀ d, resp.jsonBody = some d → resp.statusCode ≠ 200 →
      transferFilesResp resp last = (last, Except.error (ApiErr.badStatus d))) ∧
    (∀ d, resp.jsonBody = some d → resp.statusCode = 200 →
      transferFilesResp resp last = (some d, Except.ok d)) := by
  refine ⟨?_, ?_, ?_⟩
  · intro hb
    simp only [transferFilesResp, hb]
  · intro d hb hst
    simp only [transferFilesResp, hb, if_pos hst]
  · intro d hb hst
    simp only [transferFilesResp, hb, hst]
    rfl

theorem c7_transfer_files_errors_amended_witness :
    ((some 7 : Option Nat) = some 7 ∧ (404 : Nat) ≠ 200) ∧
    transferFilesResp (HttpResp.mk 404 (some 7) "bad") (some 3) =
      (some 3, Except.error (ApiErr.badStatus 7)) :=
  ⟨⟨rfl, by decide⟩,
   (c7_transfer_files_errors_amended (HttpResp.mk 404 (some 7) "bad") (some 3)).2.1
     7 rfl (by decide)⟩

/-- C7 counterexample.  A 2xx response (code 201) with a parseable JSON body
nevertheless raises: the code tests `status_code != 200`, not "non-2xx", and
the error raised at that point carries only the parsed data, not the status
code and raw body. -/
theorem c7_counterexample_status_201 :
    (200 ≤ 201 ∧ 201 < 300) ∧
    transferFilesResp (HttpResp.mk 201 (some 7) "") (none : Option Nat) =
      (none, Except.error (ApiErr.badStatus 7)) :=
  ⟨⟨by decide, by decide⟩, rfl⟩

/-- The parsed JSON body of a get response consumed by `download`
(client.py:92,97): the `salt` field (a URL-safe base64 string) and the
`file` field (the Fernet token). -/
structure GetData where
  salt : String
  file : FernetToken

/-- The failures `download` can raise after a 200 response: `binascii.Error`
from base64-decoding the salt (client.py:92), `InvalidToken` from Fernet
decryption (client.py:97), and a decode failure of the payload contents
(client.py:98,107). -/
inductive DlErr where
  | parseFailed (statusCode : Nat) (text : String)
  | badStatus (rdata : GetData)
  | saltDecodeFailed
  | cryptoFailed
  | formatFailed

/-- The response-processing tail of `download` (client.py:78-107), threading
`last_data` explicitly: parse the body or raise, check the status code or
raise, assign `last_data`, then base64-decode the salt, derive the key,
decrypt the token, and decode the payload — each later stage may still
raise, but only after `last_data` has been assigned. -/
def downloadResp (password : String) (resp : HttpResp GetData) (last : Option GetData) :
    Option GetData × Except DlErr (List (String × List Nat)) :=
  match resp.jsonBody with
  | none => (last, Except.error (DlErr.parseFailed resp.statusCode resp.text))
  | some rdata =>
    if resp.statusCode ≠ 200 then (last, Except.error (DlErr.badStatus rdata))
    else
      match b64decodeStr rdata.salt with
      | none => (some rdata, Except.error DlErr.saltDecodeFailed)
      | some saltBytes =>
        match fernetDecrypt (pbkdf2Derive password saltBytes) rdata.file with
        | none => (some rdata, Except.error DlErr.cryptoFailed)
        | some payload =>
          match decodeFiles payload with
          | none => (some rdata, Except.error DlErr.formatFailed)
          | some files => (some rdata, Except.ok files)

/-- C10.  For every 200 response with a parseable JSON body, `download`
assigns `last_data` before attempting salt decoding, decryption, or payload
decoding: whatever happens afterwards — success, a decryption error from a
wrong password or tampered token, or a decode error — the client's
`last_data` already holds that parsed server response. -/
theorem c10_last_data_set_before_decrypt (password : String) (resp : HttpResp GetData)
    (last : Option GetData) (rdata : GetData)
    (hbody : resp.jsonBody = some rdata) (hst : resp.statusCode = 200) :
    (downloadResp password resp last).1 = some rdata := by
  simp only [downloadResp, hbody, hst]
  rcases hsd : b64decodeStr rdata.salt with _ | saltBytes
  · simp [hsd]
  · rcases hfd : fernetDecrypt (pbkdf2Derive password saltBytes) rdata.file with _ | payload
    · simp [hsd, hfd]
    · rcases hdf : decodeFiles payload with _ | files
      · simp [hsd, hfd, hdf]
      · simp [hsd, hfd, hdf]

/-- A concrete get response: the salt is the base64 encoding of 16 zero
bytes, and the token was encrypted under the key derived from password
`pw` and that salt. -/
def exampleGetData : GetData :=
  GetData.mk (b64encodeStr (List.replicate 16 0))
    (fernetEncrypt (pbkdf2Derive "pw" (List.replicate 16 0)) [("a.txt", "aGk=")])

theorem c10_last_data_set_before_decrypt_witness :
    ((HttpResp.mk 200 (some exampleGetData) "").jsonBody = some exampleGetData ∧
      (HttpResp.mk 200 (some exampleGetData) "").statusCode = 200 ∧
      (downloadResp "wrong" (HttpResp.mk 200 (some exampleGetData) "") none).2 =
        Except.error DlErr.cryptoFailed) ∧
    (downloadResp "wrong" (HttpResp.mk 200 (some exampleGetData) "") none).1 =
      some exampleGetData :=
  ⟨⟨rfl, rfl, rfl⟩,
   c10_last_data_set_before_decrypt "wrong" (HttpResp.mk 200 (some exampleGetData) "")
     none exampleGetData rfl rfl⟩

theorem c3_delete_on_read_amended_witness :
    (("k" : String) ≠ "" ∧
      rget [("k", "ftok", 900), ("k-salt", "slt", 900)] "k" 1 = some "ftok" ∧
      ("ftok" : String) ≠ "" ∧
      rget [("k", "ftok", 900), ("k-salt", "slt", 900)] ("k" ++ "-salt") 1 = some "slt" ∧
      ("slt" : String) ≠ "") ∧
    (transfer (getForm "k") "z" 1 [("k", "ftok", 900), ("k-salt", "slt", 900)] =
      Except.ok (TResponse.mk 200 "get" (some "available") none none (some "ftok") (some "slt"),
        rdel [("k", "ftok", 900), ("k-salt", "slt", 900)] "k") ∧
    (∀ e ∈ rdel [("k", "ftok", 900), ("k-salt", "slt", 900)] "k", e.1 ≠ "k") ∧
    (∀ t2, rget (rdel [("k", "ftok", 900), ("k-salt", "slt", 900)] "k") ("k" ++ "-salt") t2 =
      rget [("k", "ftok", 900), ("k-salt", "slt", 900)] ("k" ++ "-salt") t2)) :=
  ⟨⟨by decide, rfl, by decide, rfl, by decide⟩,
   c3_delete_on_read_amended [("k", "ftok", 900), ("k-salt", "slt", 900)] "k" "z" "ftok" "slt" 1
     (by decide) rfl (by decide) rfl (by decide)⟩
